import Mathlib

/-!
Verification of the Foresight interview-session orchestrator.

This file gives a shallow embedding of the conversational core of the
repository:

* `generateFollowUpQuestion` and its helpers, from
  `src/4sight/services/geminiService.ts` (lines 282-426), with the remote
  model call abstracted into a `ModelOutcome` parameter (the function is
  otherwise a pure computation on the plan, the transcript and the parsed
  response);
* `transcribeAudio` (geminiService.ts lines 567-605) and the Tier-B
  recorder `onstop` handler (`InterviewScreen.tsx` lines 187-208);
* the `InterviewScreen` orchestrator
  (`src/4sight/components/foresight/InterviewScreen.tsx`), modelled as a
  discrete-event state machine `step` over `SessionState`.  Asynchronous
  blocks that the component runs to completion without a competing handler
  being able to observe an intermediate state (the body of
  `fetchAndProcessNextQuestion` together with the speak effect of lines
  368-373, and a full `speakText` replay) are modelled as atomic steps;
  the completion of an in-flight speech playback is a separate `speechEnd`
  event, and the 300 ms submission debounce is split into `submitCall`
  (schedules) and `debounceFire` (runs the scheduled fetch).

Machine-level events carry the outcomes of the external collaborators
(question generation, speech synthesis) as parameters, so a trace of
events describes one possible interleaving of the session.
-/

namespace Foresight

/-- Speaker tag of a transcript item (`'AI' | 'User'` in `types.ts`). -/
inductive Speaker where
  | ai
  | user
deriving DecidableEq, Repr

/-- One transcript entry, from `InterviewTranscriptItem` in `types.ts`
(the unused catch-all `text` field is omitted; the orchestrator and the
question service never write it). -/
structure InterviewTranscriptItem where
  speaker : Speaker
  theme : Option String := none
  question : Option String := none
  answer : Option String := none
  isProbing : Option Bool := none
deriving DecidableEq, Repr

/-- A theme with its ordered questions (`KeyQuestionnaireItem` in `types.ts`). -/
structure KeyQuestionnaireItem where
  theme : String
  questions : List String
deriving DecidableEq, Repr

/-- The research plan.  Of the fields of `ResearchPlan` in `types.ts`, only
`keyQuestionnaire` is read by the interview orchestrator and by
`generateFollowUpQuestion`; the other fields are omitted. -/
structure ResearchPlan where
  keyQuestionnaire : List KeyQuestionnaireItem
deriving DecidableEq, Repr

/-- The candidate next turn returned by the question service
(`AIQuestionResponse` in `types.ts`). -/
structure AIQuestionResponse where
  nextQuestionText : String
  theme : String
  isProbing : Bool
  isEndOfInterview : Bool
deriving DecidableEq, Repr

/-- Session language (`LanguageCode` in `types.ts`). -/
inductive LanguageCode where
  | enUS
  | enIN
  | hiIN
deriving DecidableEq, Repr

/-- Display names of the languages (`LANGUAGE_OPTIONS` in `types.ts`). -/
def LANGUAGE_OPTIONS : LanguageCode → String
  | .enUS => "English (US)"
  | .enIN => "English (India)"
  | .hiIN => "Hindi (India)"

/-! JavaScript string helpers used by the source. -/

/-- Whether the char list `l` starts with the char list `pat`. -/
def charListHasLead : List Char → List Char → Bool
  | [], _ => true
  | _ :: _, [] => false
  | c :: cs, d :: ds => c == d && charListHasLead cs ds

/-- Whether `pat` occurs as a contiguous sublist of `l`. -/
def charListContainsSub (pat : List Char) : List Char → Bool
  | [] => charListHasLead pat []
  | l@(_ :: t) => charListHasLead pat l || charListContainsSub pat t

/-- JavaScript `s.includes(pat)`: substring containment. -/
def stringIncludes (s pat : String) : Bool :=
  charListContainsSub pat.data s.data

/-- JavaScript truthiness of an optional string field: `undefined` and the
empty string are falsy. -/
def stringFieldTruthy : Option String → Bool
  | some s => !(s == "")
  | none => false

/-- JavaScript `s.trim()`: drop leading and trailing whitespace, written as
a structural function on the character list. -/
def jsTrim (s : String) : String :=
  ⟨(((s.data.dropWhile Char.isWhitespace).reverse.dropWhile Char.isWhitespace).reverse)⟩

/-! The next-question service, `generateFollowUpQuestion`
(geminiService.ts lines 282-426). -/

/-- The theme that marks a closing turn. -/
def conclusionTheme : String := "Conclusion"

/-- Fragment tested by the "generic text" check of geminiService.ts line 389. -/
def genericShareFragment : String := "Is there anything else you'd like to share"

/-- Replacement closing remark of geminiService.ts line 390. -/
def forcedClosingRemark : String :=
  "Thank you for your time today. That's all the questions I have. Is there anything else you'd like to add or share before we finish?"

/-- Concluding remark of geminiService.ts line 398 (model said end, text empty,
no planned question left). -/
def modelEndNoPlannedRemark : String :=
  "Thank you for your time today. That's all the questions I have."

/-- Neutral filler of geminiService.ts line 406, substituted so that an empty
string is never spoken. -/
def neutralFillerText : String := "I'm ready for your response."

/-- Fallback question text when the model reply could not be parsed
(geminiService.ts line 376), for the plan-exhausted case. -/
def unparsableFallbackText (languageName : String) : String :=
  "Thank you for your responses. Is there anything else you'd like to share in " ++ languageName ++ "?"

/-- Fallback question text of the catch block (geminiService.ts line 417),
for the plan-exhausted case. -/
def errorFallbackText (languageName : String) : String :=
  "Apologies, I encountered an issue. Let's try this: Is there anything else you'd like to share in " ++ languageName ++ "?"

/-- Questions already asked: transcript items with `speaker === 'AI'` and a
truthy `question`, mapped to their question text (geminiService.ts
lines 293-295). -/
def askedQuestionsInTranscript (transcript : List InterviewTranscriptItem) : List String :=
  (transcript.filter fun it => decide (it.speaker = .ai) && stringFieldTruthy it.question).filterMap
    (·.question)

/-- Scan themes in declared order and questions within a theme in declared
order; return the first `(theme, question)` whose question is not in `asked`
(the double loop of geminiService.ts lines 298-306). -/
def nextPlannedQuestionScan (asked : List String) :
    List KeyQuestionnaireItem → Option (String × String)
  | [] => none
  | item :: rest =>
    match item.questions.find? (fun q => !(asked.contains q)) with
    | some q => some (item.theme, q)
    | none => nextPlannedQuestionScan asked rest

/-- The next unasked planned question, as computed by
`generateFollowUpQuestion` (geminiService.ts lines 291-306). -/
def nextPlannedQuestion (plan : ResearchPlan) (transcript : List InterviewTranscriptItem) :
    Option (String × String) :=
  nextPlannedQuestionScan (askedQuestionsInTranscript transcript) plan.keyQuestionnaire

/-- Post-processing of the candidate response (geminiService.ts lines
383-408): force a conclusion when the plan is exhausted, repair an
end-of-interview reply with empty text, and never return empty text. -/
def repairCandidate (planned : Option (String × String)) (r : AIQuestionResponse) :
    AIQuestionResponse :=
  let r1 :=
    match planned with
    | none =>
      -- lines 386-393: no planned question left, force the end
      { nextQuestionText :=
          if r.nextQuestionText = "" ∨ stringIncludes r.nextQuestionText genericShareFragment then
            forcedClosingRemark
          else r.nextQuestionText,
        theme := conclusionTheme,
        isProbing := false,
        isEndOfInterview := true }
    | some (th, q) =>
      -- lines 394-402: `nextPlannedQuestion` is non-null here, so the
      -- ternaries of lines 396-401 resolve to the planned question, its
      -- theme, and `isEndOfInterview = false`
      if r.isEndOfInterview ∧ r.nextQuestionText = "" then
        { nextQuestionText := q, theme := th, isProbing := false, isEndOfInterview := false }
      else r
  -- lines 404-407: final check that the text is never empty
  if r1.nextQuestionText = "" then { r1 with nextQuestionText := neutralFillerText } else r1

/-- Outcome of the remote model call inside `generateFollowUpQuestion`. -/
inductive ModelOutcome where
  | parsed (r : AIQuestionResponse)
  | unparsable
  | throws
deriving DecidableEq, Repr

/-- The body of `generateFollowUpQuestion` (geminiService.ts lines 282-426)
with the `model.generateContent` call abstracted by `outcome`.  The function
never returns null: a parse failure uses the fallback of lines 373-380 and a
thrown error is caught at lines 412-425. -/
def generateFollowUpQuestion (plan : ResearchPlan) (transcript : List InterviewTranscriptItem)
    (lang : LanguageCode) (outcome : ModelOutcome) : AIQuestionResponse :=
  let languageName := LANGUAGE_OPTIONS lang
  let planned := nextPlannedQuestion plan transcript
  match outcome with
  | .throws =>
    -- catch block, lines 412-425: note that it returns directly, without
    -- the repair pass
    match planned with
    | some (th, q) =>
      { nextQuestionText := q, theme := th, isProbing := false, isEndOfInterview := false }
    | none =>
      { nextQuestionText := errorFallbackText languageName, theme := conclusionTheme,
        isProbing := false, isEndOfInterview := true }
  | .parsed r => repairCandidate planned r
  | .unparsable =>
    -- fallback response of lines 373-380, then the repair pass
    let fallback : AIQuestionResponse :=
      match planned with
      | some (th, q) =>
        { nextQuestionText := q, theme := th, isProbing := false, isEndOfInterview := false }
      | none =>
        { nextQuestionText := unparsableFallbackText languageName, theme := "General Feedback",
          isProbing := false, isEndOfInterview := false }
    repairCandidate planned fallback

/-! Tier-B transcription, `transcribeAudio` (geminiService.ts lines 567-605)
and the recorder `onstop` handler (InterviewScreen.tsx lines 187-208). -/

/-- The Tier-B speech backend's reply: HTTP status, and the optional
`transcript` field of the JSON body when the status is OK. -/
structure SttBackendResponse where
  ok : Bool
  transcriptField : Option String
deriving DecidableEq, Repr

/-- `transcribeAudio` on a backend reply: a non-OK status throws; an OK body
whose `transcript` field is missing (or falsy) yields the empty string
(lines 586-599). -/
def transcribeAudio (resp : SttBackendResponse) : Except String String :=
  if resp.ok then
    if stringFieldTruthy resp.transcriptField then .ok (resp.transcriptField.getD "")
    else .ok ""
  else .error "Failed to transcribe audio"

/-- Capture status (`voiceInputStage` in InterviewScreen.tsx line 50). -/
inductive VoiceInputStage where
  | idle
  | recording
  | transcribing
  | error
  | readyToSubmit
deriving DecidableEq, Repr

/-- Result of the recorder `onstop` handler (InterviewScreen.tsx lines
187-208): the final capture status and, when one is stored, the new value of
the user-input buffer.  `audioBlobSize = 0` surfaces "No audio recorded."
without storing anything; otherwise the blob is uploaded and a transcription
success stores the (possibly empty) transcript, a failure clears the buffer. -/
def fallbackStopResult (audioBlobSize : Nat) (resp : SttBackendResponse) :
    VoiceInputStage × Option String :=
  if audioBlobSize = 0 then (.error, none)
  else
    match transcribeAudio resp with
    | .ok t => (.readyToSubmit, some t)
    | .error _ => (.error, some "")

/-! The interview orchestrator (InterviewScreen.tsx), as a discrete-event
state machine. -/

/-- Interview stage (`InterviewStage` in `types.ts`, plus the `'initial'`
value the component actually starts in, line 45). -/
inductive InterviewStage where
  | initial
  | processing
  | asking
  | listening
  | concluding
  | finished
deriving DecidableEq, Repr

/-- Per-session configuration: the immutable plan and language props of
`InterviewScreen`. -/
structure SessionConfig where
  plan : ResearchPlan
  lang : LanguageCode
deriving DecidableEq, Repr

/-- How an in-flight `generateFollowUpQuestion` call ends, as seen by the
orchestrator: either `getAiClient()` threw before the service body's `try`
(geminiService.ts line 287), making the whole call throw, or the call
returns the candidate computed from a `ModelOutcome`. -/
inductive FetchOutcome where
  | clientInitFailure
  | service (o : ModelOutcome)
deriving DecidableEq, Repr

/-- How a speech playback started by `speakText` ends: the audio played to
its natural end (or a playback error, which runs the same handler, lines
119-133), `synthesizeSpeech` returned null (lines 138-146), or the awaited
operation threw (lines 147-157, which also clears the last-spoken marker). -/
inductive SpeechOutcome where
  | ended
  | failedNull
  | threw
deriving DecidableEq, Repr

/-- Orchestrator state: the `useState`/`useRef` cells of `InterviewScreen`
that the conversational logic reads or writes.  `pendingSubmit` is the
debounce cell `submitDebounceRef` together with the values the scheduled
closure captured; `handedOff` records the argument of the latest
`onInterviewComplete` call.  `displayedQuestionText`, `sttError` and the
media/audio handles are presentation or I/O details not modelled;
`isFetchingQuestion` is always false between events because a fetch is an
atomic step; `speakingPromiseRef` is non-null exactly while `isSpeaking`
(every path that clears one clears the other), so only `isSpeaking` is kept. -/
structure SessionState where
  transcript : List InterviewTranscriptItem
  stage : InterviewStage
  currentAIQuestion : Option AIQuestionResponse
  currentUserResponse : String
  isSpeaking : Bool
  isListening : Bool
  voiceInputStage : VoiceInputStage
  lastSpokenQuestionText : Option String
  pendingSubmit : Option (String × Option AIQuestionResponse)
  handedOff : Option (List InterviewTranscriptItem)
deriving DecidableEq, Repr

/-- The state at mount (InterviewScreen.tsx lines 41-60). -/
def initialState : SessionState :=
  { transcript := [], stage := .initial, currentAIQuestion := none, currentUserResponse := "",
    isSpeaking := false, isListening := false, voiceInputStage := .idle,
    lastSpokenQuestionText := none, pendingSubmit := none, handedOff := none }

/-- The theme of the current question, when there is one
(JavaScript `currentAIQuestion?.theme`). -/
def themeOfOpt (q : Option AIQuestionResponse) : Option String := q.map (·.theme)

/-- Stage chosen when a speech attempt settles:
`theme !== "Conclusion" ? 'listening' : 'concluding'` (speakText). -/
def themeStage (theme : String) : InterviewStage :=
  if theme = conclusionTheme then .concluding else .listening

/-- The PARTICIPANT turn appended for a non-empty answer
(InterviewScreen.tsx lines 300-304). -/
def userTurn (answer : String) (qData : Option AIQuestionResponse) : InterviewTranscriptItem :=
  { speaker := .user, theme := themeOfOpt qData, answer := some (jsTrim answer) }

/-- The placeholder PARTICIPANT turn for an empty answer to a non-concluding
question (InterviewScreen.tsx lines 307-311). -/
def placeholderTurn (qData : Option AIQuestionResponse) : InterviewTranscriptItem :=
  { speaker := .user, theme := themeOfOpt qData, answer := some "No response provided." }

/-- The AGENT turn recorded for a candidate response
(InterviewScreen.tsx lines 323-328 and 345). -/
def aiTurn (r : AIQuestionResponse) : InterviewTranscriptItem :=
  { speaker := .ai, theme := some r.theme, question := some r.nextQuestionText,
    isProbing := some r.isProbing }

/-- The emergency conclusion synthesized when the fetch throws
(InterviewScreen.tsx line 342). -/
def emergencyConclusion : AIQuestionResponse :=
  { nextQuestionText := "An error occurred. We'll end the interview here. Thanks for your time.",
    theme := conclusionTheme, isProbing := false, isEndOfInterview := true }

/-- The transcript handed to the question service: the snapshot taken at the
start of the fetch plus the user's turn, per InterviewScreen.tsx lines
296-312 (non-empty trimmed answer → `userTurn`; defined answer that trims to
empty against a non-"Conclusion" question → `placeholderTurn`; otherwise
nothing). -/
def requestTranscript (transcript : List InterviewTranscriptItem) (userAnswer : Option String)
    (qData : Option AIQuestionResponse) : List InterviewTranscriptItem :=
  match userAnswer with
  | none => transcript
  | some a =>
    if jsTrim a = "" then
      if themeOfOpt qData ≠ some conclusionTheme then transcript ++ [placeholderTurn qData]
      else transcript
    else transcript ++ [userTurn a qData]

/-- The part of `speakText` (lines 69-109) that runs synchronously for a
non-forced call triggered by the speak effect (lines 368-373): a question
text equal to the last-spoken marker, or text that trims to empty, settles
the stage immediately by theme; otherwise the marker is set and a playback
starts (`speechEnd` later delivers its outcome).  The in-progress guard of
lines 79-82 never fires here because `isSpeaking` is false whenever a fetch
completes. -/
def speakOutcomeStart (s : SessionState) (q : AIQuestionResponse) : SessionState :=
  if s.lastSpokenQuestionText = some q.nextQuestionText then
    { s with isSpeaking := false, stage := themeStage q.theme }
  else if jsTrim q.nextQuestionText = "" then
    { s with isSpeaking := false, stage := themeStage q.theme }
  else
    { s with lastSpokenQuestionText := some q.nextQuestionText, isSpeaking := true }

/-- One complete run of `fetchAndProcessNextQuestion` (lines 284-352)
followed by the speak effect on the new candidate (lines 368-373): stop
capture, append the user's turn, call the service on the updated snapshot,
append the resulting AGENT turn (the emergency conclusion if the call
threw), set the stage, and start speaking. -/
def fetchStep (cfg : SessionConfig) (s : SessionState) (userAnswer : Option String)
    (qData : Option AIQuestionResponse) (o : FetchOutcome) : SessionState :=
  let req := requestTranscript s.transcript userAnswer qData
  let s1 := { s with isListening := false, voiceInputStage := .idle,
                     transcript := req, currentUserResponse := "" }
  match o with
  | .clientInitFailure =>
    -- catch block, lines 339-347
    let s2 := { s1 with transcript := req ++ [aiTurn emergencyConclusion],
                        currentAIQuestion := some emergencyConclusion, stage := .concluding }
    speakOutcomeStart s2 emergencyConclusion
  | .service mo =>
    -- success path, lines 318-335
    let r := generateFollowUpQuestion cfg.plan req cfg.lang mo
    let s2 := { s1 with transcript := req ++ [aiTurn r], currentAIQuestion := some r,
                        stage := if r.isEndOfInterview then .concluding else .asking }
    speakOutcomeStart s2 r

/-- Whether the interview view (question panel, response box, buttons) is on
screen: false during the initial loading screen (line 457) and on the
finished screen's main panel (line 468). -/
def viewExists (s : SessionState) : Bool :=
  !(decide (s.stage = .initial) && decide (s.transcript = [])) && !(decide (s.stage = .finished))

/-- The guard of `handleSubmitResponse` (lines 385-397): not speaking, not
capturing, not processing, a non-empty trimmed response unless the current
theme is "Conclusion", and no debounced submission pending — together with
the interview view being on screen. -/
def submitAccepted (s : SessionState) : Bool :=
  viewExists s && !s.isSpeaking && !s.isListening && !(decide (s.stage = .processing)) &&
    !(decide (jsTrim s.currentUserResponse = "") &&
      !(decide (themeOfOpt s.currentAIQuestion = some conclusionTheme))) &&
    decide (s.pendingSubmit = none)

/-- The render condition of the Replay button (line 481): a current question
exists, not speaking, not processing — note that capturing (`isListening`)
does not disable it. -/
def replayAllowed (s : SessionState) : Bool :=
  viewExists s && s.currentAIQuestion.isSome && !s.isSpeaking &&
    !(decide (s.stage = .processing))

/-- Enablement of the voice button for starting capture (lines 419-455,
default case: disabled while speaking, processing, transcribing, or already
capturing). -/
def startCaptureAllowed (s : SessionState) : Bool :=
  viewExists s && !s.isListening && !s.isSpeaking && !(decide (s.stage = .processing)) &&
    !(decide (s.voiceInputStage = .transcribing))

/-- Theme given to the trailing turn of an early completion:
`currentAIQuestion?.theme || "Conclusion"` (line 411) — a missing or empty
theme falls back to "Conclusion". -/
def earlyCompletionTheme (q : Option AIQuestionResponse) : String :=
  match q with
  | some r => if r.theme = "" then conclusionTheme else r.theme
  | none => conclusionTheme

/-- A full forced replay (`speakText` with `forceSpeak = true`, lines 69-160)
run to completion: text that trims to empty settles the stage immediately;
otherwise the marker is set, playback runs, and every completion path
(natural end, playback error, null synthesis, thrown synthesis) finalizes
with the same by-theme stage, a thrown synthesis additionally clearing the
marker (lines 148-150). -/
def replayStep (s : SessionState) (q : AIQuestionResponse) (o : SpeechOutcome) : SessionState :=
  if jsTrim q.nextQuestionText = "" then
    { s with isSpeaking := false, stage := themeStage q.theme }
  else
    match o with
    | .threw =>
      { s with isSpeaking := false, stage := themeStage q.theme, lastSpokenQuestionText := none }
    | _ =>
      { s with isSpeaking := false, stage := themeStage q.theme,
               lastSpokenQuestionText := some q.nextQuestionText }

/-- The discrete events of a session.  Events carrying a `FetchOutcome` or
`SpeechOutcome` resolve the corresponding external call. -/
inductive Event where
  | fetchInitial (o : FetchOutcome)
  | typeResponse (txt : String)
  | submitCall
  | debounceFire (o : FetchOutcome)
  | speechEnd (o : SpeechOutcome)
  | replay (o : SpeechOutcome)
  | startCapture
  | stopCapture
  | settleFinish
  | completeEarly
deriving DecidableEq, Repr

/-- One step of the orchestrator.  Each case embeds the corresponding
handler or effect of InterviewScreen.tsx; guarded events whose guard fails
leave the state unchanged (the handler logs and returns, or the control is
not on screen). -/
def step (cfg : SessionConfig) (s : SessionState) : Event → SessionState
  | .fetchInitial o =>
    -- mount effect, lines 354-357
    if s.stage = .initial ∧ s.transcript = [] then fetchStep cfg s none none o else s
  | .typeResponse txt =>
    -- TextArea onChange (line 491), enabled per line 495
    if viewExists s &&
        !(s.isSpeaking || decide (s.stage = .processing) ||
          decide (s.voiceInputStage = .transcribing) || s.isListening) then
      { s with currentUserResponse := txt }
    else s
  | .submitCall =>
    -- handleSubmitResponse, lines 385-403: schedule the debounced fetch,
    -- capturing the current response and question
    if submitAccepted s then
      { s with pendingSubmit := some (s.currentUserResponse, s.currentAIQuestion) }
    else s
  | .debounceFire o =>
    -- the 300 ms timeout body, lines 398-402
    match s.pendingSubmit with
    | some (ans, q) => fetchStep cfg { s with pendingSubmit := none } (some ans) q o
    | none => s
  | .speechEnd o =>
    -- handleSpeechEnd / error paths of the speech operation, lines 119-157
    match s.currentAIQuestion, s.isSpeaking with
    | some q, true =>
      { s with isSpeaking := false, stage := themeStage q.theme,
               lastSpokenQuestionText :=
                 if o = .threw then
                   if s.lastSpokenQuestionText = some q.nextQuestionText then none
                   else s.lastSpokenQuestionText
                 else s.lastSpokenQuestionText }
    | _, _ => s
  | .replay o =>
    -- Replay button, line 482
    if replayAllowed s then
      match s.currentAIQuestion with
      | some q => replayStep s q o
      | none => s
    else s
  | .startCapture =>
    -- startListening, lines 217-226 (tier selection and recognition
    -- callbacks are I/O details; the buffer is cleared and capture starts)
    if startCaptureAllowed s then
      { s with currentUserResponse := "", voiceInputStage := .recording, isListening := true,
               isSpeaking := false }
    else s
  | .stopCapture =>
    -- stopListening (lines 162-174) and the recognition onend of lines
    -- 260-267 for a user-requested stop
    if s.isListening then
      { s with isListening := false,
               voiceInputStage :=
                 if jsTrim s.currentUserResponse = "" then .idle else .readyToSubmit }
    else s
  | .settleFinish =>
    -- settle effect, lines 375-383: concluding, not speaking, theme
    -- "Conclusion" → finished after 500 ms, then hand the transcript off
    if s.stage = .concluding ∧ s.isSpeaking = false ∧
        themeOfOpt s.currentAIQuestion = some conclusionTheme then
      { s with stage := .finished,
               handedOff := if s.transcript.isEmpty then s.handedOff else some s.transcript }
    else s
  | .completeEarly =>
    -- handleCompleteInterview, lines 405-414: hand off the transcript plus
    -- any unsaved response, without mutating the session transcript
    if !(decide (s.stage = .initial) && decide (s.transcript = [])) then
      { s with handedOff := some (s.transcript ++
          (if jsTrim s.currentUserResponse = "" then []
           else [{ speaker := .user, theme := some (earlyCompletionTheme s.currentAIQuestion),
                   answer := some (jsTrim s.currentUserResponse) }])) }
    else s

/-- Run a list of events from a given state. -/
def runFrom (cfg : SessionConfig) (s : SessionState) (events : List Event) : SessionState :=
  events.foldl (step cfg) s

/-- Run a list of events from the mount state. -/
def run (cfg : SessionConfig) (events : List Event) : SessionState :=
  runFrom cfg initialState events

/-! Spec-side definition of the planned-question scan, for the refinement
claim about `nextPlannedQuestion`. -/

/-- The texts spoken by the AGENT in a transcript: the question text of
every AGENT turn (an AGENT item without a question field carries no text). -/
def agentTurnTexts (t : List InterviewTranscriptItem) : List String :=
  t.filterMap fun it => if it.speaker = .ai then it.question else none

/-- The next planned question as the spec words it: scan the plan's themes
in declared order and questions within each theme in declared order; the
first question whose exact text is absent from all AGENT turns in the
transcript is the candidate, and absence of any such question means the
plan is exhausted. -/
def nextPlannedQuestionSpec (plan : ResearchPlan) (t : List InterviewTranscriptItem) :
    Option (String × String) :=
  nextPlannedQuestionScan (agentTurnTexts t) plan.keyQuestionnaire

/-! Definitions used to state and prove the machine-level properties. -/

/-- The candidate installed by a fetch on a given request snapshot:
the service's repaired response, or the emergency conclusion when the call
threw. -/
def fetchCandidate (cfg : SessionConfig) (req : List InterviewTranscriptItem) :
    FetchOutcome → AIQuestionResponse
  | .clientInitFailure => emergencyConclusion
  | .service mo => generateFollowUpQuestion cfg.plan req cfg.lang mo

/-- Speaker pattern of a transcript with `k + 1` AGENT turns, each AGENT
turn except the first preceded by the PARTICIPANT answer to its
predecessor: `[AGENT, PARTICIPANT, AGENT, …, PARTICIPANT, AGENT]`. -/
def agentAltList : Nat → List Speaker
  | 0 => [.ai]
  | k + 1 => agentAltList k ++ [.user, .ai]

/-- A trace contains no accepted submission whose captured text trims to
the empty string (the code accepts such a submission when the pending
theme is "Conclusion", and then appends no PARTICIPANT turn). -/
def goodTrace (cfg : SessionConfig) : SessionState → List Event → Bool
  | _, [] => true
  | s, e :: es =>
    (match e with
     | .submitCall => !(submitAccepted s && decide (jsTrim s.currentUserResponse = ""))
     | _ => true) && goodTrace cfg (step cfg s e) es

/-- Transcript-shape invariant: an empty transcript only occurs in the
pristine initial state, a captured pending submission never trims to empty,
and the speaker sequence is `AGENT (PARTICIPANT AGENT)*`. -/
def InvC2 (s : SessionState) : Prop :=
  (s.transcript = [] → s.stage = .initial ∧ s.isSpeaking = false ∧ s.pendingSubmit = none) ∧
  (∀ a q, s.pendingSubmit = some (a, q) → jsTrim a ≠ "") ∧
  (s.transcript.map (·.speaker) = [] ∨ ∃ k, s.transcript.map (·.speaker) = agentAltList k)

/-- Stage/theme consistency invariant: `asking` only while speaking, a
settled `listening` (resp. `concluding`) stage has a current question whose
theme is not (resp. is) "Conclusion", and in `initial` there is no current
question. -/
def InvStage (s : SessionState) : Prop :=
  (s.stage = .asking → s.isSpeaking = true) ∧
  (s.stage = .listening → ∃ q, s.currentAIQuestion = some q ∧ q.theme ≠ conclusionTheme) ∧
  (s.stage = .concluding → s.isSpeaking = false →
    ∃ q, s.currentAIQuestion = some q ∧ q.theme = conclusionTheme) ∧
  (s.stage = .initial → s.currentAIQuestion = none ∧ s.isSpeaking = false)

theorem askedQuestions_eq_filter (t : List InterviewTranscriptItem) :
    askedQuestionsInTranscript t = (agentTurnTexts t).filter (fun s => !(s == "")) := by
  induction t with
  | nil => rfl
  | cons it rest ih =>
    obtain ⟨sp, th, q, ans, pr⟩ := it
    cases sp with
    | user =>
      simpa [askedQuestionsInTranscript, agentTurnTexts, List.filter_cons,
        List.filterMap_cons] using ih
    | ai =>
      cases q with
      | none =>
        simpa [askedQuestionsInTranscript, agentTurnTexts, stringFieldTruthy,
          List.filter_cons, List.filterMap_cons] using ih
      | some v =>
        by_cases hv : v = "" <;>
          simp_all [askedQuestionsInTranscript, agentTurnTexts, stringFieldTruthy,
            List.filter_cons, List.filterMap_cons]

theorem contains_filter_nonempty (l : List String) (q : String) (hq : q ≠ "") :
    (l.filter fun s => !(s == "")).contains q = l.contains q := by
  show ((l.filter fun s => !(s == "")).elem q) = l.elem q
  rw [Bool.eq_iff_iff, List.elem_iff, List.elem_iff, List.mem_filter]
  simp [hq]

theorem find?_congr_on {α : Type} (p₁ p₂ : α → Bool) (l : List α)
    (h : ∀ a ∈ l, p₁ a = p₂ a) : l.find? p₁ = l.find? p₂ := by
  induction l with
  | nil => rfl
  | cons a t ih =>
    have ha := h a (List.mem_cons_self _ _)
    by_cases hp : p₁ a = true
    · rw [List.find?_cons_of_pos _ hp, List.find?_cons_of_pos _ (ha ▸ hp)]
    · rw [List.find?_cons_of_neg _ hp, List.find?_cons_of_neg _ (ha ▸ hp)]
      exact ih fun a ha' => h a (List.mem_cons_of_mem _ ha')

theorem scan_eq_of_nonempty (items : List KeyQuestionnaireItem)
    (t : List InterviewTranscriptItem)
    (h : ∀ item ∈ items, ∀ q ∈ item.questions, q ≠ "") :
    nextPlannedQuestionScan (askedQuestionsInTranscript t) items =
      nextPlannedQuestionScan (agentTurnTexts t) items := by
  induction items with
  | nil => rfl
  | cons item rest ih =>
    have hfind :
        item.questions.find? (fun q => !((askedQuestionsInTranscript t).contains q)) =
          item.questions.find? (fun q => !((agentTurnTexts t).contains q)) := by
      apply find?_congr_on
      intro q hq
      rw [askedQuestions_eq_filter,
        contains_filter_nonempty _ _ (h item (List.mem_cons_self _ _) q hq)]
    unfold nextPlannedQuestionScan
    rw [hfind]
    cases item.questions.find? (fun q => !((agentTurnTexts t).contains q)) with
    | none => exact ih fun i hi => h i (List.mem_cons_of_mem _ hi)
    | some q => rfl

set_option maxHeartbeats 4000000 in
/-- C4 (counterexample): with a plan whose only question is the empty
string, a service failure appends an AGENT turn whose text is that empty
question; the code then still treats the empty question as unasked (empty
AGENT texts are excluded from the asked set), while by the spec's wording
its exact text appears among the AGENT turns, so the plan is exhausted. -/
theorem c4_counterexample :
    nextPlannedQuestion ⟨[⟨"Theme A", [""]⟩]⟩
        (run ⟨⟨[⟨"Theme A", [""]⟩]⟩, .enUS⟩ [.fetchInitial (.service .throws)]).transcript =
      some ("Theme A", "") ∧
    nextPlannedQuestionSpec ⟨[⟨"Theme A", [""]⟩]⟩
        (run ⟨⟨[⟨"Theme A", [""]⟩]⟩, .enUS⟩ [.fetchInitial (.service .throws)]).transcript =
      none := by
  decide

/-- C4 (amended): for every plan none of whose questions is the empty
string, and every transcript, the next planned question computed by
`generateFollowUpQuestion` is exactly the first question — scanning themes
in declared order and questions within each theme in declared order — whose
exact text (compared case- and whitespace-sensitively) does not appear
among the AGENT turns of the transcript, and the plan is exhausted exactly
when no such question exists. -/
theorem c4_amended (plan : ResearchPlan) (t : List InterviewTranscriptItem)
    (h : ∀ item ∈ plan.keyQuestionnaire, ∀ q ∈ item.questions, q ≠ "") :
    nextPlannedQuestion plan t = nextPlannedQuestionSpec plan t :=
  scan_eq_of_nonempty plan.keyQuestionnaire t h

/-- Witness for `c4_amended` at a concrete plan and transcript. -/
theorem c4_amended_witness :
    nextPlannedQuestion ⟨[⟨"Theme A", ["Q1", "Q2"]⟩]⟩
        [{ speaker := .ai, theme := some "Theme A", question := some "Q1",
           isProbing := some false }] =
      nextPlannedQuestionSpec ⟨[⟨"Theme A", ["Q1", "Q2"]⟩]⟩
        [{ speaker := .ai, theme := some "Theme A", question := some "Q1",
           isProbing := some false }] :=
  c4_amended _ _ (by decide)

/-- C5: whenever the plan is exhausted, a successfully parsed service
response is repaired to a closing candidate: `isEndOfInterview = true`,
theme "Conclusion", `isProbing = false`, and an empty or generic text is
replaced by the fixed closing remark. -/
theorem c5_plan_exhausted_forces_conclusion (plan : ResearchPlan)
    (t : List InterviewTranscriptItem) (lang : LanguageCode) (r : AIQuestionResponse)
    (h : nextPlannedQuestion plan t = none) :
    (generateFollowUpQuestion plan t lang (.parsed r)).isEndOfInterview = true ∧
    (generateFollowUpQuestion plan t lang (.parsed r)).theme = conclusionTheme ∧
    (generateFollowUpQuestion plan t lang (.parsed r)).isProbing = false ∧
    ((r.nextQuestionText = "" ∨ stringIncludes r.nextQuestionText genericShareFragment = true) →
      (generateFollowUpQuestion plan t lang (.parsed r)).nextQuestionText =
        forcedClosingRemark) := by
  have hfc : forcedClosingRemark ≠ "" := by decide
  unfold generateFollowUpQuestion repairCandidate
  rw [h]
  refine ⟨?_, ?_, ?_, ?_⟩ <;> simp only [] <;> split <;> simp_all

/-- Witness for `c5_plan_exhausted_forces_conclusion` at an empty plan and a
generic response text. -/
theorem c5_witness :
    (generateFollowUpQuestion ⟨[]⟩ [] .enUS
        (.parsed ⟨"Is there anything else you'd like to share?", "X", true, false⟩)).isEndOfInterview
        = true ∧
    (generateFollowUpQuestion ⟨[]⟩ [] .enUS
        (.parsed ⟨"Is there anything else you'd like to share?", "X", true, false⟩)).theme
        = conclusionTheme ∧
    (generateFollowUpQuestion ⟨[]⟩ [] .enUS
        (.parsed ⟨"Is there anything else you'd like to share?", "X", true, false⟩)).isProbing
        = false ∧
    (generateFollowUpQuestion ⟨[]⟩ [] .enUS
        (.parsed ⟨"Is there anything else you'd like to share?", "X", true, false⟩)).nextQuestionText
        = forcedClosingRemark := by
  have h := c5_plan_exhausted_forces_conclusion ⟨[]⟩ [] .enUS
    ⟨"Is there anything else you'd like to share?", "X", true, false⟩ (by decide)
  exact ⟨h.1, h.2.1, h.2.2.1, h.2.2.2 (Or.inr (by decide))⟩

theorem repairCandidate_text_ne_empty (planned : Option (String × String))
    (r : AIQuestionResponse) : (repairCandidate planned r).nextQuestionText ≠ "" := by
  have hnf : neutralFillerText ≠ "" := by decide
  have hfc : forcedClosingRemark ≠ "" := by decide
  unfold repairCandidate
  cases planned <;> dsimp only [] <;> split_ifs <;> simp_all

/-- C6 (counterexample): with a plan whose next unasked question is the
empty string, a service response with `isEndOfInterview = true` and empty
text is repaired to the neutral filler, not to the planned question (which
would be the empty string). -/
theorem c6_counterexample :
    nextPlannedQuestion ⟨[⟨"Theme A", [""]⟩]⟩ [] = some ("Theme A", "") ∧
    (generateFollowUpQuestion ⟨[⟨"Theme A", [""]⟩]⟩ [] .enUS
        (.parsed ⟨"", "X", true, true⟩)).nextQuestionText = neutralFillerText ∧
    neutralFillerText ≠ "" := by
  decide

/-- C6 (amended): for a service response with `isEndOfInterview = true` and
empty text, if an unasked planned question exists the candidate carries
that question's text — or the neutral filler when that text is empty — with
its theme and `isEndOfInterview` demoted to false; if none exists the
candidate is the fixed closing remark with `isEndOfInterview` still true;
and no repaired candidate ever has empty text. -/
theorem c6_amended (plan : ResearchPlan) (t : List InterviewTranscriptItem)
    (lang : LanguageCode) (r : AIQuestionResponse)
    (hEnd : r.isEndOfInterview = true) (hTxt : r.nextQuestionText = "") :
    (∀ th q, nextPlannedQuestion plan t = some (th, q) →
        generateFollowUpQuestion plan t lang (.parsed r) =
          { nextQuestionText := if q = "" then neutralFillerText else q, theme := th,
            isProbing := false, isEndOfInterview := false }) ∧
    (nextPlannedQuestion plan t = none →
        generateFollowUpQuestion plan t lang (.parsed r) =
          { nextQuestionText := forcedClosingRemark, theme := conclusionTheme,
            isProbing := false, isEndOfInterview := true }) ∧
    (∀ r' : AIQuestionResponse,
        (generateFollowUpQuestion plan t lang (.parsed r')).nextQuestionText ≠ "") := by
  refine ⟨?_, ?_, ?_⟩
  · intro th q hpq
    unfold generateFollowUpQuestion repairCandidate
    rw [hpq]
    simp only [hEnd, hTxt, true_and, if_true]
    split <;> simp_all
  · intro hpq
    unfold generateFollowUpQuestion repairCandidate
    rw [hpq]
    simp [hTxt, forcedClosingRemark]
  · intro r'
    show (repairCandidate (nextPlannedQuestion plan t) r').nextQuestionText ≠ ""
    exact repairCandidate_text_ne_empty _ _

/-- Witness for `c6_amended` at a concrete plan and response. -/
theorem c6_amended_witness :
    generateFollowUpQuestion ⟨[⟨"Theme A", ["Q1"]⟩]⟩ [] .enUS (.parsed ⟨"", "X", true, true⟩) =
      { nextQuestionText := "Q1", theme := "Theme A", isProbing := false,
        isEndOfInterview := false } := by
  have h := (c6_amended ⟨[⟨"Theme A", ["Q1"]⟩]⟩ [] .enUS ⟨"", "X", true, true⟩ rfl rfl).1
    "Theme A" "Q1" (by decide)
  simpa using h

/-- C3: a submission with a non-empty trimmed answer appends exactly the
PARTICIPANT turn carrying it to the snapshot handed to the question
service, that turn is the snapshot's last element, and the debounced fetch
both hands this snapshot to `generateFollowUpQuestion` and appends the
resulting AGENT turn after it. -/
theorem c3_transcript_snapshot (t : List InterviewTranscriptItem) (a : String)
    (q : Option AIQuestionResponse) (ha : jsTrim a ≠ "") :
    requestTranscript t (some a) q = t ++ [userTurn a q] ∧
    (requestTranscript t (some a) q).getLast? = some (userTurn a q) ∧
    (∀ (cfg : SessionConfig) (s : SessionState) (mo : ModelOutcome),
        s.pendingSubmit = some (a, q) →
        (step cfg s (.debounceFire (.service mo))).currentAIQuestion =
            some (generateFollowUpQuestion cfg.plan
              (requestTranscript s.transcript (some a) q) cfg.lang mo) ∧
          (step cfg s (.debounceFire (.service mo))).transcript =
            requestTranscript s.transcript (some a) q ++
              [aiTurn (generateFollowUpQuestion cfg.plan
                (requestTranscript s.transcript (some a) q) cfg.lang mo)]) := by
  have hreq : ∀ t' : List InterviewTranscriptItem,
      requestTranscript t' (some a) q = t' ++ [userTurn a q] := by
    intro t'
    simp [requestTranscript, ha]
  refine ⟨hreq t, by simp [hreq t], ?_⟩
  intro cfg s mo hp
  simp only [step, hp]
  unfold fetchStep
  simp only [hreq]
  constructor <;> (unfold speakOutcomeStart) <;> (split_ifs <;> rfl)

/-- Witness for `c3_transcript_snapshot` at a concrete submission. -/
theorem c3_witness :
    requestTranscript [] (some "Via a friend") none = [userTurn "Via a friend" none] := by
  have h := (c3_transcript_snapshot [] "Via a friend" none (by decide)).1
  simpa using h

/-- C10: a Tier-B backend reply that is OK but lacks a `transcript` field
makes `transcribeAudio` return the empty string rather than fail, and the
recorder `onstop` handler then stores that empty string as the participant
input with capture status `readyToSubmit`. -/
theorem c10_missing_transcript_field (size : Nat) (resp : SttBackendResponse)
    (hs : size ≠ 0) (hok : resp.ok = true) (hmiss : resp.transcriptField = none) :
    transcribeAudio resp = .ok "" ∧
    fallbackStopResult size resp = (.readyToSubmit, some "") := by
  obtain ⟨ok, tf⟩ := resp
  cases hok
  cases hmiss
  exact ⟨rfl, by simp [fallbackStopResult, hs, transcribeAudio, stringFieldTruthy]⟩

/-- Witness for `c10_missing_transcript_field` at a concrete reply. -/
theorem c10_witness :
    transcribeAudio ⟨true, none⟩ = .ok "" ∧
    fallbackStopResult 5 ⟨true, none⟩ = (.readyToSubmit, some "") :=
  c10_missing_transcript_field 5 ⟨true, none⟩ (by decide) rfl rfl

/-! Machine-level helper lemmas. -/

theorem speakOutcomeStart_fields (s : SessionState) (q : AIQuestionResponse) :
    (speakOutcomeStart s q).transcript = s.transcript ∧
    (speakOutcomeStart s q).currentAIQuestion = s.currentAIQuestion ∧
    (speakOutcomeStart s q).pendingSubmit = s.pendingSubmit ∧
    (speakOutcomeStart s q).currentUserResponse = s.currentUserResponse ∧
    (speakOutcomeStart s q).isListening = s.isListening ∧
    (speakOutcomeStart s q).handedOff = s.handedOff := by
  unfold speakOutcomeStart
  split_ifs <;> exact ⟨rfl, rfl, rfl, rfl, rfl, rfl⟩

theorem fetchStep_as_speak (cfg : SessionConfig) (s : SessionState) (ua : Option String)
    (qd : Option AIQuestionResponse) (o : FetchOutcome) :
    fetchStep cfg s ua qd o =
      speakOutcomeStart
        { s with isListening := false, voiceInputStage := .idle,
                 transcript := requestTranscript s.transcript ua qd ++
                   [aiTurn (fetchCandidate cfg (requestTranscript s.transcript ua qd) o)],
                 currentUserResponse := "",
                 currentAIQuestion :=
                   some (fetchCandidate cfg (requestTranscript s.transcript ua qd) o),
                 stage :=
                   if (fetchCandidate cfg (requestTranscript s.transcript ua qd) o).isEndOfInterview
                   then .concluding else .asking }
        (fetchCandidate cfg (requestTranscript s.transcript ua qd) o) := by
  cases o <;> rfl

theorem fetchStep_transcript (cfg : SessionConfig) (s : SessionState) (ua : Option String)
    (qd : Option AIQuestionResponse) (o : FetchOutcome) :
    (fetchStep cfg s ua qd o).transcript =
      requestTranscript s.transcript ua qd ++
        [aiTurn (fetchCandidate cfg (requestTranscript s.transcript ua qd) o)] := by
  rw [fetchStep_as_speak, (speakOutcomeStart_fields _ _).1]

theorem fetchStep_pendingSubmit (cfg : SessionConfig) (s : SessionState) (ua : Option String)
    (qd : Option AIQuestionResponse) (o : FetchOutcome) :
    (fetchStep cfg s ua qd o).pendingSubmit = s.pendingSubmit := by
  rw [fetchStep_as_speak, (speakOutcomeStart_fields _ _).2.2.1]

theorem requestTranscript_append (t : List InterviewTranscriptItem) (ua : Option String)
    (qd : Option AIQuestionResponse) :
    requestTranscript t ua qd = t ∨
    requestTranscript t ua qd = t ++ [userTurn (ua.getD "") qd] ∨
    requestTranscript t ua qd = t ++ [placeholderTurn qd] := by
  cases ua with
  | none => exact Or.inl rfl
  | some a =>
    by_cases ht : jsTrim a = ""
    · by_cases hth : themeOfOpt qd ≠ some conclusionTheme
      · right; right; simp [requestTranscript, ht, hth]
      · left; simp [requestTranscript, ht, hth]
    · right; left; simp [requestTranscript, ht]

theorem step_append_only (cfg : SessionConfig) (s : SessionState) (e : Event) :
    s.transcript <+: (step cfg s e).transcript := by
  have hfetch : ∀ ua qd o, s.transcript <+: (fetchStep cfg s ua qd o).transcript := by
    intro ua qd o
    rw [fetchStep_transcript]
    have hreq := requestTranscript_append s.transcript ua qd
    rcases hreq with h | h | h <;> rw [h] <;>
      first
      | exact List.prefix_append _ _
      | exact (List.prefix_append _ _).trans (List.prefix_append _ _)
  cases e with
  | fetchInitial o =>
    simp only [step]
    split
    · exact hfetch none none o
    · exact List.prefix_refl _
  | debounceFire o =>
    simp only [step]
    split
    · rename_i ans q heq
      have : s.transcript = ({ s with pendingSubmit := none } : SessionState).transcript := rfl
      rw [this]
      exact (by
        rw [fetchStep_transcript]
        rcases requestTranscript_append ({ s with pendingSubmit := none } :
            SessionState).transcript (some ans) q with h | h | h <;> rw [h] <;>
          first
          | exact List.prefix_append _ _
          | exact (List.prefix_append _ _).trans (List.prefix_append _ _))
    · exact List.prefix_refl _
  | typeResponse txt => simp only [step]; split <;> exact List.prefix_refl _
  | submitCall => simp only [step]; split <;> exact List.prefix_refl _
  | speechEnd o =>
    simp only [step]
    split <;> exact List.prefix_refl _
  | replay o =>
    simp only [step]
    split
    · split
      · unfold replayStep
        split_ifs <;> (try split) <;> exact List.prefix_refl _
      · exact List.prefix_refl _
    · exact List.prefix_refl _
  | startCapture => simp only [step]; split <;> exact List.prefix_refl _
  | stopCapture => simp only [step]; split <;> exact List.prefix_refl _
  | settleFinish => simp only [step]; split <;> exact List.prefix_refl _
  | completeEarly => simp only [step]; split <;> exact List.prefix_refl _

theorem replayStep_fields (s : SessionState) (q : AIQuestionResponse) (o : SpeechOutcome) :
    (replayStep s q o).transcript = s.transcript ∧
    (replayStep s q o).pendingSubmit = s.pendingSubmit ∧
    (replayStep s q o).stage = themeStage q.theme ∧
    (replayStep s q o).isSpeaking = false ∧
    (replayStep s q o).currentAIQuestion = s.currentAIQuestion := by
  unfold replayStep
  split_ifs
  · exact ⟨rfl, rfl, rfl, rfl, rfl⟩
  · cases o <;> exact ⟨rfl, rfl, rfl, rfl, rfl⟩

theorem viewExists_of_submitAccepted {s : SessionState} (h : submitAccepted s = true) :
    viewExists s = true := by
  unfold submitAccepted at h
  simp only [Bool.and_eq_true] at h
  exact h.1.1.1.1.1

theorem viewExists_of_replayAllowed {s : SessionState} (h : replayAllowed s = true) :
    viewExists s = true := by
  unfold replayAllowed at h
  simp only [Bool.and_eq_true] at h
  exact h.1.1.1

theorem viewExists_of_startCaptureAllowed {s : SessionState} (h : startCaptureAllowed s = true) :
    viewExists s = true := by
  unfold startCaptureAllowed at h
  simp only [Bool.and_eq_true] at h
  exact h.1.1.1.1

theorem not_initial_empty_of_viewExists {s : SessionState} (h : viewExists s = true) :
    ¬(s.stage = .initial ∧ s.transcript = []) := by
  rintro ⟨hi, ht⟩
  simp [viewExists, hi, ht] at h

theorem pendingSubmit_of_submitAccepted {s : SessionState} (h : submitAccepted s = true) :
    s.pendingSubmit = none := by
  unfold submitAccepted at h
  simp only [Bool.and_eq_true, decide_eq_true_eq] at h
  exact h.2

theorem invC2_step (cfg : SessionConfig) (s : SessionState) (e : Event) (hs : InvC2 s)
    (he : e = .submitCall → submitAccepted s = true → jsTrim s.currentUserResponse ≠ "") :
    InvC2 (step cfg s e) := by
  obtain ⟨h1, h2, h3⟩ := hs
  cases e with
  | fetchInitial o =>
    simp only [step]
    split
    · rename_i hguard
      refine ⟨?_, ?_, ?_⟩
      · intro htr
        rw [fetchStep_transcript] at htr
        exact absurd htr (by simp)
      · intro a q heq
        rw [fetchStep_pendingSubmit] at heq
        rw [(h1 hguard.2).2.2] at heq
        cases heq
      · right
        refine ⟨0, ?_⟩
        rw [fetchStep_transcript, hguard.2]
        rfl
    · exact ⟨h1, h2, h3⟩
  | typeResponse txt =>
    simp only [step]
    split
    · exact ⟨h1, h2, h3⟩
    · exact ⟨h1, h2, h3⟩
  | submitCall =>
    simp only [step]
    split
    · rename_i hacc
      have hne := he rfl hacc
      refine ⟨?_, ?_, h3⟩
      · intro htr
        exact absurd ⟨(h1 htr).1, htr⟩
          (not_initial_empty_of_viewExists (viewExists_of_submitAccepted hacc))
      · intro a q heq
        injection heq with heq'
        injection heq' with ha hq
        rw [← ha]
        exact hne
    · exact ⟨h1, h2, h3⟩
  | debounceFire o =>
    simp only [step]
    split
    · rename_i ans q heq
      have hans : jsTrim ans ≠ "" := h2 ans q heq
      have htrne : s.transcript ≠ [] := by
        intro h
        have := (h1 h).2.2
        rw [this] at heq
        cases heq
      have hreq : requestTranscript s.transcript (some ans) q =
          s.transcript ++ [userTurn ans q] := by
        simp [requestTranscript, hans]
      refine ⟨?_, ?_, ?_⟩
      · intro htr
        rw [fetchStep_transcript] at htr
        exact absurd htr (by simp)
      · intro a q' heq'
        rw [fetchStep_pendingSubmit] at heq'
        cases heq'
      · rcases h3 with h3 | ⟨k, h3⟩
        · exact absurd (List.map_eq_nil_iff.mp h3) htrne
        · right
          refine ⟨k + 1, ?_⟩
          rw [fetchStep_transcript]
          show (requestTranscript s.transcript (some ans) q ++ [aiTurn _]).map (·.speaker) =
            agentAltList (k + 1)
          rw [hreq, agentAltList]
          simp [List.map_append, h3, userTurn, aiTurn]
    · exact ⟨h1, h2, h3⟩
  | speechEnd o =>
    simp only [step]
    split
    · rename_i q heq hsp
      refine ⟨?_, h2, h3⟩
      intro htr
      have := (h1 htr).2.1
      rw [hsp] at this
      cases this
    · exact ⟨h1, h2, h3⟩
  | replay o =>
    simp only [step]
    split
    · rename_i hallow
      split
      · rename_i q heq
        have hfields := replayStep_fields s q o
        refine ⟨?_, ?_, ?_⟩
        · intro htr
          rw [hfields.1] at htr
          exact absurd ⟨(h1 htr).1, htr⟩
            (not_initial_empty_of_viewExists (viewExists_of_replayAllowed hallow))
        · intro a q' heq'
          rw [hfields.2.1] at heq'
          exact h2 a q' heq'
        · rw [hfields.1]
          exact h3
      · exact ⟨h1, h2, h3⟩
    · exact ⟨h1, h2, h3⟩
  | startCapture =>
    simp only [step]
    split
    · exact ⟨fun htr => ⟨(h1 htr).1, rfl, (h1 htr).2.2⟩, h2, h3⟩
    · exact ⟨h1, h2, h3⟩
  | stopCapture =>
    simp only [step]
    split
    · exact ⟨fun htr => ⟨(h1 htr).1, (h1 htr).2.1, (h1 htr).2.2⟩, h2, h3⟩
    · exact ⟨h1, h2, h3⟩
  | settleFinish =>
    simp only [step]
    split
    · rename_i hguard
      refine ⟨?_, h2, h3⟩
      intro htr
      have := (h1 htr).1
      rw [hguard.1] at this
      cases this
    · exact ⟨h1, h2, h3⟩
  | completeEarly =>
    simp only [step]
    split
    · exact ⟨fun htr => ⟨(h1 htr).1, (h1 htr).2.1, (h1 htr).2.2⟩, h2, h3⟩
    · exact ⟨h1, h2, h3⟩

theorem invC2_initialState : InvC2 initialState := by
  refine ⟨fun _ => ⟨rfl, rfl, rfl⟩, ?_, Or.inl rfl⟩
  intro a q h
  cases h

theorem invC2_runFrom (cfg : SessionConfig) :
    ∀ (events : List Event) (s : SessionState), InvC2 s → goodTrace cfg s events = true →
      InvC2 (runFrom cfg s events) := by
  intro events
  induction events with
  | nil => exact fun s h _ => h
  | cons e es ih =>
    intro s h hg
    simp only [goodTrace, Bool.and_eq_true] at hg
    refine ih (step cfg s e) (invC2_step cfg s e h ?_) hg.2
    intro hse hacc
    subst hse
    have hg1 := hg.1
    simp only [hacc, Bool.true_and, Bool.not_eq_true', Bool.and_eq_true] at hg1
    intro hcontra
    rw [hcontra] at hg1
    simp at hg1

theorem agentAltList_facts (k : Nat) :
    (agentAltList k).head? = some .ai ∧ (agentAltList k).getLast? = some .ai ∧
    List.Chain' (fun a b : Speaker => a ≠ b) (agentAltList k) := by
  induction k with
  | zero => exact ⟨rfl, rfl, List.chain'_singleton _⟩
  | succ k ih =>
    obtain ⟨hh, hl, hc⟩ := ih
    obtain ⟨x, xs, hxx⟩ : ∃ x xs, agentAltList k = x :: xs := by
      cases h : agentAltList k with
      | nil => rw [h] at hh; cases hh
      | cons x xs => exact ⟨x, xs, rfl⟩
    refine ⟨?_, ?_, ?_⟩
    · rw [agentAltList, hxx]
      rw [hxx] at hh
      simpa using hh
    · rw [agentAltList, List.getLast?_append_of_ne_nil _ (by simp)]
      rfl
    · rw [agentAltList, List.chain'_append]
      refine ⟨hc, List.chain'_cons.mpr ⟨by decide, List.chain'_singleton _⟩, ?_⟩
      intro x' hx' y hy
      rw [hl] at hx'
      simp only [Option.mem_def, Option.some.injEq] at hx'
      simp only [List.head?_cons, Option.mem_def, Option.some.injEq] at hy
      subst hx'
      subst hy
      decide

set_option maxHeartbeats 4000000 in
/-- C2 (counterexample): the sequence «initial fetch returns an
early-conclusion candidate with unasked planned questions remaining; speech
ends; an empty submission is made during `concluding` (accepted because the
pending theme is "Conclusion"); the debounced fetch fires» yields two
consecutive AGENT turns with the second not a closing turn: strict
AGENT/PARTICIPANT alternation is violated before the closing turn. -/
theorem c2_counterexample :
    ((run ⟨⟨[⟨"Theme A", ["Q1"]⟩]⟩, .enUS⟩
        [.fetchInitial (.service (.parsed ⟨"Any final thoughts?", "Conclusion", false, true⟩)),
         .speechEnd .ended, .submitCall,
         .debounceFire (.service (.parsed ⟨"Q2?", "Theme A", false, false⟩))]).transcript.map
      (·.speaker) = [.ai, .ai]) ∧
    ¬ List.Chain' (fun x y : InterviewTranscriptItem => x.speaker ≠ y.speaker)
      (run ⟨⟨[⟨"Theme A", ["Q1"]⟩]⟩, .enUS⟩
        [.fetchInitial (.service (.parsed ⟨"Any final thoughts?", "Conclusion", false, true⟩)),
         .speechEnd .ended, .submitCall,
         .debounceFire (.service (.parsed ⟨"Q2?", "Theme A", false, false⟩))]).transcript ∧
    (run ⟨⟨[⟨"Theme A", ["Q1"]⟩]⟩, .enUS⟩
        [.fetchInitial (.service (.parsed ⟨"Any final thoughts?", "Conclusion", false, true⟩)),
         .speechEnd .ended, .submitCall,
         .debounceFire (.service (.parsed ⟨"Q2?", "Theme A", false, false⟩))]).stage = .asking := by
  have hS : run ⟨⟨[⟨"Theme A", ["Q1"]⟩]⟩, .enUS⟩
      [.fetchInitial (.service (.parsed ⟨"Any final thoughts?", "Conclusion", false, true⟩)),
       .speechEnd .ended, .submitCall,
       .debounceFire (.service (.parsed ⟨"Q2?", "Theme A", false, false⟩))] =
      { transcript := [{ speaker := .ai, theme := some "Conclusion",
                         question := some "Any final thoughts?", isProbing := some false },
                       { speaker := .ai, theme := some "Theme A", question := some "Q2?",
                         isProbing := some false }],
        stage := .asking,
        currentAIQuestion := some ⟨"Q2?", "Theme A", false, false⟩,
        currentUserResponse := "", isSpeaking := true, isListening := false,
        voiceInputStage := .idle, lastSpokenQuestionText := some "Q2?",
        pendingSubmit := none, handedOff := none } := by decide
  refine ⟨by rw [hS]; rfl, ?_, by rw [hS]⟩
  rw [hS]
  intro hch
  exact (List.chain'_cons.mp hch).1 rfl

/-- C2 (amended): every step only appends to the transcript (the old
transcript is a prefix of the new one, so no turn is edited or removed);
and along every trace in which no accepted submission has text that trims
to empty, the transcript's turns strictly alternate starting and ending
with an AGENT turn — the trailing AGENT turn being the only one without a
following PARTICIPANT answer.  An accepted empty submission (possible
exactly while the pending theme is "Conclusion") appends no PARTICIPANT
turn, so the AGENT turn appended by the fetch it triggers breaks strict
alternation. -/
theorem c2_amended :
    (∀ (cfg : SessionConfig) (s : SessionState) (e : Event),
        s.transcript <+: (step cfg s e).transcript) ∧
    (∀ (cfg : SessionConfig) (events : List Event),
        goodTrace cfg initialState events = true →
        List.Chain' (fun x y : InterviewTranscriptItem => x.speaker ≠ y.speaker)
          (run cfg events).transcript ∧
        ((run cfg events).transcript = [] ∨
          (((run cfg events).transcript.map (·.speaker)).head? = some .ai ∧
            ((run cfg events).transcript.map (·.speaker)).getLast? = some .ai))) := by
  refine ⟨step_append_only, ?_⟩
  intro cfg events hg
  obtain ⟨-, -, h3⟩ := invC2_runFrom cfg events initialState invC2_initialState hg
  rw [show runFrom cfg initialState events = run cfg events from rfl] at h3
  rcases h3 with h3 | ⟨k, h3⟩
  · have htr : (run cfg events).transcript = [] := List.map_eq_nil_iff.mp h3
    exact ⟨by rw [htr]; exact List.chain'_nil, Or.inl htr⟩
  · obtain ⟨hh, hl, hc⟩ := agentAltList_facts k
    constructor
    · have hmap : List.Chain' (fun a b : Speaker => a ≠ b)
          ((run cfg events).transcript.map (·.speaker)) := by rw [h3]; exact hc
      rw [List.chain'_map] at hmap
      exact hmap
    · right
      rw [h3]
      exact ⟨hh, hl⟩

set_option maxHeartbeats 4000000 in
/-- Witness for `c2_amended` along a concrete trace. -/
theorem c2_amended_witness :
    List.Chain' (fun x y : InterviewTranscriptItem => x.speaker ≠ y.speaker)
      (run ⟨⟨[⟨"Theme A", ["Q1"]⟩]⟩, .enUS⟩
        [.fetchInitial (.service (.parsed ⟨"Q1", "Theme A", false, false⟩))]).transcript :=
  (c2_amended.2 ⟨⟨[⟨"Theme A", ["Q1"]⟩]⟩, .enUS⟩
    [.fetchInitial (.service (.parsed ⟨"Q1", "Theme A", false, false⟩))] (by decide)).1

set_option maxHeartbeats 4000000 in
/-- C1 (counterexample): a network/service error inside the model call,
with an unasked planned question remaining, does not produce the emergency
conclusion: `generateFollowUpQuestion` absorbs the error and returns the
next planned question with `isEndOfInterview = false`, the appended AGENT
turn is not "Conclusion"-themed, and the session proceeds to `asking`, not
`concluding`. -/
theorem c1_counterexample :
    (run ⟨⟨[⟨"Theme A", ["Q1"]⟩]⟩, .enUS⟩ [.fetchInitial (.service .throws)]).stage =
      .asking ∧
    (run ⟨⟨[⟨"Theme A", ["Q1"]⟩]⟩, .enUS⟩ [.fetchInitial (.service .throws)]).transcript =
      [{ speaker := .ai, theme := some "Theme A", question := some "Q1",
         isProbing := some false }] ∧
    (run ⟨⟨[⟨"Theme A", ["Q1"]⟩]⟩, .enUS⟩
        [.fetchInitial (.service .throws)]).currentAIQuestion =
      some ⟨"Q1", "Theme A", false, false⟩ ∧
    (∀ it ∈ (run ⟨⟨[⟨"Theme A", ["Q1"]⟩]⟩, .enUS⟩
        [.fetchInitial (.service .throws)]).transcript, it.theme ≠ some conclusionTheme) := by
  decide

/-- C1 (amended): an error thrown by the remote model call is absorbed
inside `generateFollowUpQuestion`: it returns the next planned question
(`isEndOfInterview = false`) when one remains, and only when the plan is
exhausted an apologetic "Conclusion" candidate with
`isEndOfInterview = true`.  Only a call that itself throws (client
initialization failure) makes the orchestrator synthesize the fixed
emergency closing candidate, append it as an AGENT turn and proceed to
`CONCLUDING` without retrying; a session whose first fetch throws that way
and that receives no further user operations reaches `FINISHED` with
exactly one PARTICIPANT-absent AGENT turn bearing theme "Conclusion",
handed off to the caller. -/
theorem c1_amended :
    (∀ (plan : ResearchPlan) (t : List InterviewTranscriptItem) (lang : LanguageCode)
        (th q : String), nextPlannedQuestion plan t = some (th, q) →
        generateFollowUpQuestion plan t lang .throws =
          { nextQuestionText := q, theme := th, isProbing := false,
            isEndOfInterview := false }) ∧
    (∀ (plan : ResearchPlan) (t : List InterviewTranscriptItem) (lang : LanguageCode),
        nextPlannedQuestion plan t = none →
        generateFollowUpQuestion plan t lang .throws =
          { nextQuestionText := errorFallbackText (LANGUAGE_OPTIONS lang),
            theme := conclusionTheme, isProbing := false, isEndOfInterview := true }) ∧
    (∀ cfg : SessionConfig,
        run cfg [.fetchInitial .clientInitFailure, .speechEnd .ended, .settleFinish] =
          { transcript := [aiTurn emergencyConclusion], stage := .finished,
            currentAIQuestion := some emergencyConclusion, currentUserResponse := "",
            isSpeaking := false, isListening := false, voiceInputStage := .idle,
            lastSpokenQuestionText := some emergencyConclusion.nextQuestionText,
            pendingSubmit := none, handedOff := some [aiTurn emergencyConclusion] }) := by
  refine ⟨?_, ?_, ?_⟩
  · intro plan t lang th q h
    unfold generateFollowUpQuestion
    rw [h]
  · intro plan t lang h
    unfold generateFollowUpQuestion
    rw [h]
  · intro cfg
    rfl

/-- Witness for `c1_amended` at concrete plans and a concrete session. -/
theorem c1_amended_witness :
    generateFollowUpQuestion ⟨[⟨"Theme A", ["Q1"]⟩]⟩ [] .enUS .throws =
      { nextQuestionText := "Q1", theme := "Theme A", isProbing := false,
        isEndOfInterview := false } ∧
    generateFollowUpQuestion ⟨[]⟩ [] .enUS .throws =
      { nextQuestionText := errorFallbackText (LANGUAGE_OPTIONS .enUS),
        theme := conclusionTheme, isProbing := false, isEndOfInterview := true } ∧
    (run ⟨⟨[]⟩, .enUS⟩
        [.fetchInitial .clientInitFailure, .speechEnd .ended, .settleFinish]).stage =
      .finished :=
  ⟨c1_amended.1 _ _ _ "Theme A" "Q1" (by decide), c1_amended.2.1 _ _ _ (by decide),
    by rw [c1_amended.2.2 ⟨⟨[]⟩, .enUS⟩]⟩

set_option maxHeartbeats 4000000 in
/-- C7 (counterexample): a pair of empty-input submissions made while the
pending theme is "Conclusion" — the only state in which empty input is
accepted — has the first call accepted and the second silently ignored, yet
the fired fetch appends zero PARTICIPANT turns, not exactly one. -/
theorem c7_counterexample :
    submitAccepted (run ⟨⟨[⟨"Theme A", ["Q1"]⟩]⟩, .enUS⟩
      [.fetchInitial (.service (.parsed ⟨"Bye now.", "Conclusion", false, true⟩)),
       .speechEnd .ended]) = true ∧
    jsTrim (run ⟨⟨[⟨"Theme A", ["Q1"]⟩]⟩, .enUS⟩
      [.fetchInitial (.service (.parsed ⟨"Bye now.", "Conclusion", false, true⟩)),
       .speechEnd .ended]).currentUserResponse = "" ∧
    step ⟨⟨[⟨"Theme A", ["Q1"]⟩]⟩, .enUS⟩
      (run ⟨⟨[⟨"Theme A", ["Q1"]⟩]⟩, .enUS⟩
        [.fetchInitial (.service (.parsed ⟨"Bye now.", "Conclusion", false, true⟩)),
         .speechEnd .ended, .submitCall]) .submitCall =
      run ⟨⟨[⟨"Theme A", ["Q1"]⟩]⟩, .enUS⟩
        [.fetchInitial (.service (.parsed ⟨"Bye now.", "Conclusion", false, true⟩)),
         .speechEnd .ended, .submitCall] ∧
    ((run ⟨⟨[⟨"Theme A", ["Q1"]⟩]⟩, .enUS⟩
      [.fetchInitial (.service (.parsed ⟨"Bye now.", "Conclusion", false, true⟩)),
       .speechEnd .ended, .submitCall,
       .debounceFire (.service (.parsed ⟨"Q1", "Theme A", false, false⟩))]).transcript.filter
        (fun it => decide (it.speaker = .user))).length = 0 := by
  decide

/-- C7 (amended): while a debounced submission is pending, every further
`submitCall` is a no-op, so a pair of calls within the window triggers
exactly one next-question request (which also clears the pending cell); the
fired fetch appends exactly one PARTICIPANT turn provided the captured
input does not trim to empty (an accepted empty-input submission — possible
only against a "Conclusion"-themed question — appends none). -/
theorem c7_debounce_single_submission (cfg : SessionConfig) (s : SessionState)
    (mo : ModelOutcome) (hacc : submitAccepted s = true) :
    step cfg (step cfg s .submitCall) .submitCall = step cfg s .submitCall ∧
    (step cfg (step cfg s .submitCall) (.debounceFire (.service mo))).pendingSubmit = none ∧
    (jsTrim s.currentUserResponse ≠ "" →
      (step cfg (step cfg s .submitCall) (.debounceFire (.service mo))).transcript =
        s.transcript ++ [userTurn s.currentUserResponse s.currentAIQuestion] ++
          [aiTurn (generateFollowUpQuestion cfg.plan
            (s.transcript ++ [userTurn s.currentUserResponse s.currentAIQuestion])
            cfg.lang mo)] ∧
      ((step cfg (step cfg s .submitCall) (.debounceFire (.service mo))).transcript.filter
          (fun it => decide (it.speaker = .user))).length =
        (s.transcript.filter (fun it => decide (it.speaker = .user))).length + 1) := by
  have hs1 : step cfg s .submitCall =
      { s with pendingSubmit := some (s.currentUserResponse, s.currentAIQuestion) } := by
    simp [step, hacc]
  refine ⟨?_, ?_, ?_⟩
  · rw [hs1]
    have hfalse :
        submitAccepted
          { s with
            pendingSubmit := some (s.currentUserResponse, s.currentAIQuestion) } = false := by
      simp [submitAccepted]
    simp [step, hfalse]
  · rw [hs1]
    show (fetchStep cfg _ (some s.currentUserResponse) s.currentAIQuestion
      (.service mo)).pendingSubmit = none
    rw [fetchStep_pendingSubmit]
  · intro hne
    have hreq : requestTranscript s.transcript (some s.currentUserResponse)
        s.currentAIQuestion = s.transcript ++ [userTurn s.currentUserResponse
          s.currentAIQuestion] := by
      simp [requestTranscript, hne]
    have htr : (step cfg (step cfg s .submitCall) (.debounceFire (.service mo))).transcript =
        s.transcript ++ [userTurn s.currentUserResponse s.currentAIQuestion] ++
          [aiTurn (generateFollowUpQuestion cfg.plan
            (s.transcript ++ [userTurn s.currentUserResponse s.currentAIQuestion])
            cfg.lang mo)] := by
      rw [hs1]
      show (fetchStep cfg _ (some s.currentUserResponse) s.currentAIQuestion
        (.service mo)).transcript = _
      rw [fetchStep_transcript]
      show requestTranscript s.transcript (some s.currentUserResponse) s.currentAIQuestion ++
          [aiTurn (fetchCandidate cfg (requestTranscript s.transcript
            (some s.currentUserResponse) s.currentAIQuestion) (.service mo))] = _
      rw [hreq]
      rfl
    refine ⟨htr, ?_⟩
    rw [htr]
    simp [List.filter_append, userTurn, aiTurn]

set_option maxHeartbeats 4000000 in
/-- Witness for `c7_debounce_single_submission`: the second call in the
window is ignored at a concrete listening state. -/
theorem c7_witness :
    step ⟨⟨[⟨"Theme A", ["Q1"]⟩]⟩, .enUS⟩
      (step ⟨⟨[⟨"Theme A", ["Q1"]⟩]⟩, .enUS⟩
        { transcript := [aiTurn ⟨"Q1", "Theme A", false, false⟩], stage := .listening,
          currentAIQuestion := some ⟨"Q1", "Theme A", false, false⟩,
          currentUserResponse := "hi", isSpeaking := false, isListening := false,
          voiceInputStage := .idle, lastSpokenQuestionText := some "Q1",
          pendingSubmit := none, handedOff := none } .submitCall) .submitCall =
    step ⟨⟨[⟨"Theme A", ["Q1"]⟩]⟩, .enUS⟩
      { transcript := [aiTurn ⟨"Q1", "Theme A", false, false⟩], stage := .listening,
        currentAIQuestion := some ⟨"Q1", "Theme A", false, false⟩,
        currentUserResponse := "hi", isSpeaking := false, isListening := false,
        voiceInputStage := .idle, lastSpokenQuestionText := some "Q1",
        pendingSubmit := none, handedOff := none } .submitCall :=
  (c7_debounce_single_submission ⟨⟨[⟨"Theme A", ["Q1"]⟩]⟩, .enUS⟩
    { transcript := [aiTurn ⟨"Q1", "Theme A", false, false⟩], stage := .listening,
      currentAIQuestion := some ⟨"Q1", "Theme A", false, false⟩,
      currentUserResponse := "hi", isSpeaking := false, isListening := false,
      voiceInputStage := .idle, lastSpokenQuestionText := some "Q1",
      pendingSubmit := none, handedOff := none } .unparsable (by decide)).1

set_option maxHeartbeats 4000000 in
/-- C8 (counterexample): an empty submission made while the pending theme
is "Conclusion" is accepted (the debounce cell is set), yet the fired fetch
appends no PARTICIPANT turn at all — the synthetic-placeholder branch
requires a non-"Conclusion" theme — so the transcript gains zero
PARTICIPANT turns. -/
theorem c8_counterexample :
    submitAccepted (run ⟨⟨[⟨"Theme A", ["Q1"]⟩]⟩, .enUS⟩
      [.fetchInitial (.service (.parsed ⟨"Any final thoughts?", "Conclusion", false, true⟩)),
       .speechEnd .ended]) = true ∧
    jsTrim (run ⟨⟨[⟨"Theme A", ["Q1"]⟩]⟩, .enUS⟩
      [.fetchInitial (.service (.parsed ⟨"Any final thoughts?", "Conclusion", false, true⟩)),
       .speechEnd .ended]).currentUserResponse = "" ∧
    (run ⟨⟨[⟨"Theme A", ["Q1"]⟩]⟩, .enUS⟩
      [.fetchInitial (.service (.parsed ⟨"Any final thoughts?", "Conclusion", false, true⟩)),
       .speechEnd .ended, .submitCall]).pendingSubmit =
      some ("", some ⟨"Any final thoughts?", "Conclusion", false, true⟩) ∧
    ((run ⟨⟨[⟨"Theme A", ["Q1"]⟩]⟩, .enUS⟩
      [.fetchInitial (.service (.parsed ⟨"Any final thoughts?", "Conclusion", false, true⟩)),
       .speechEnd .ended, .submitCall,
       .debounceFire (.service (.parsed ⟨"Q2?", "Theme A", false, false⟩))]).transcript.filter
        (fun it => decide (it.speaker = .user))).length = 0 := by
  decide

/-- C8 (amended): given the other submission preconditions, an empty-text
`submitResponse` is accepted exactly when the pending AGENT turn's theme is
"Conclusion"; but an accepted empty submission appends no PARTICIPANT turn:
the snapshot handed to the service equals the old transcript (the
"No response provided." placeholder is reserved for an empty answer to a
non-"Conclusion" question, which the submit handler itself rejects). -/
theorem c8_amended :
    (∀ s : SessionState, viewExists s = true → s.isSpeaking = false →
        s.isListening = false → s.stage ≠ .processing → s.pendingSubmit = none →
        jsTrim s.currentUserResponse = "" →
        (submitAccepted s = true ↔ themeOfOpt s.currentAIQuestion = some conclusionTheme)) ∧
    (∀ (t : List InterviewTranscriptItem) (a : String) (q : Option AIQuestionResponse),
        jsTrim a = "" → themeOfOpt q = some conclusionTheme →
        requestTranscript t (some a) q = t) := by
  constructor
  · intro s hv hsp hlst hproc hpend hempty
    simp [submitAccepted, hv, hsp, hlst, hproc, hpend, hempty]
  · intro t a q ha hq
    simp [requestTranscript, ha, hq]

theorem invStage_of_settled (s : SessionState) (q : AIQuestionResponse)
    (hq : s.currentAIQuestion = some q) (hst : s.stage = themeStage q.theme)
    (_hsp : s.isSpeaking = false) : InvStage s := by
  by_cases hth : q.theme = conclusionTheme
  · have hst' : s.stage = .concluding := by rw [hst]; unfold themeStage; rw [if_pos hth]
    refine ⟨?_, ?_, ?_, ?_⟩
    · intro h; rw [hst'] at h; cases h
    · intro h; rw [hst'] at h; cases h
    · intro _ _; exact ⟨q, hq, hth⟩
    · intro h; rw [hst'] at h; cases h
  · have hst' : s.stage = .listening := by rw [hst]; unfold themeStage; rw [if_neg hth]
    refine ⟨?_, ?_, ?_, ?_⟩
    · intro h; rw [hst'] at h; cases h
    · intro _; exact ⟨q, hq, hth⟩
    · intro h _; rw [hst'] at h; cases h
    · intro h; rw [hst'] at h; cases h

theorem invStage_speakOutcomeStart (s : SessionState) (q : AIQuestionResponse)
    (hq : s.currentAIQuestion = some q)
    (hstage : s.stage = .asking ∨ s.stage = .concluding) : InvStage (speakOutcomeStart s q) := by
  unfold speakOutcomeStart
  split_ifs
  · exact invStage_of_settled _ q hq rfl rfl
  · exact invStage_of_settled _ q hq rfl rfl
  · refine ⟨fun _ => rfl, ?_, ?_, ?_⟩
    · intro h
      rcases hstage with hs | hs <;> rw [hs] at h <;> cases h
    · intro _ h
      cases h
    · intro h
      rcases hstage with hs | hs <;> rw [hs] at h <;> cases h

theorem invStage_fetchStep (cfg : SessionConfig) (s : SessionState) (ua : Option String)
    (qd : Option AIQuestionResponse) (o : FetchOutcome) : InvStage (fetchStep cfg s ua qd o) := by
  rw [fetchStep_as_speak]
  apply invStage_speakOutcomeStart _ _ rfl
  by_cases h : (fetchCandidate cfg (requestTranscript s.transcript ua qd) o).isEndOfInterview = true
  · right
    simp [h]
  · left
    simp [h]

theorem startCaptureAllowed_not_speaking {s : SessionState}
    (h : startCaptureAllowed s = true) : s.isSpeaking = false := by
  unfold startCaptureAllowed at h
  simp only [Bool.and_eq_true, Bool.not_eq_true'] at h
  exact h.1.1.2

theorem invStage_step (cfg : SessionConfig) (s : SessionState) (e : Event) (hs : InvStage s) :
    InvStage (step cfg s e) := by
  obtain ⟨h1, h2, h3, h4⟩ := hs
  cases e with
  | fetchInitial o =>
    simp only [step]
    split
    · exact invStage_fetchStep cfg s none none o
    · exact ⟨h1, h2, h3, h4⟩
  | typeResponse txt =>
    simp only [step]
    split
    · exact ⟨h1, h2, h3, h4⟩
    · exact ⟨h1, h2, h3, h4⟩
  | submitCall =>
    simp only [step]
    split
    · exact ⟨h1, h2, h3, h4⟩
    · exact ⟨h1, h2, h3, h4⟩
  | debounceFire o =>
    simp only [step]
    split
    · exact invStage_fetchStep cfg _ _ _ o
    · exact ⟨h1, h2, h3, h4⟩
  | speechEnd o =>
    simp only [step]
    split
    · rename_i q heq hsp
      exact invStage_of_settled _ q heq rfl rfl
    · exact ⟨h1, h2, h3, h4⟩
  | replay o =>
    simp only [step]
    split
    · split
      · rename_i q heq
        have hf := replayStep_fields s q o
        exact invStage_of_settled _ q (hf.2.2.2.2.trans heq) hf.2.2.1 hf.2.2.2.1
      · exact ⟨h1, h2, h3, h4⟩
    · exact ⟨h1, h2, h3, h4⟩
  | startCapture =>
    simp only [step]
    split
    · rename_i hallow
      have hsp := startCaptureAllowed_not_speaking hallow
      refine ⟨?_, h2, ?_, ?_⟩
      · intro h
        exact absurd (h1 h) (by rw [hsp]; exact Bool.false_ne_true)
      · intro h _
        exact h3 h hsp
      · intro h
        exact ⟨(h4 h).1, rfl⟩
    · exact ⟨h1, h2, h3, h4⟩
  | stopCapture =>
    simp only [step]
    split
    · exact ⟨h1, h2, h3, h4⟩
    · exact ⟨h1, h2, h3, h4⟩
  | settleFinish =>
    simp only [step]
    split
    · unfold InvStage
      exact ⟨fun h => (nomatch h), fun h => (nomatch h), fun h _ => (nomatch h), fun h => (nomatch h)⟩
    · exact ⟨h1, h2, h3, h4⟩
  | completeEarly =>
    simp only [step]
    split
    · exact ⟨h1, h2, h3, h4⟩
    · exact ⟨h1, h2, h3, h4⟩

theorem invStage_initialState : InvStage initialState := by
  unfold InvStage
  exact ⟨fun h => (nomatch h), fun h => (nomatch h), fun h _ => (nomatch h), fun _ => ⟨rfl, rfl⟩⟩

theorem invStage_run (cfg : SessionConfig) (events : List Event) :
    InvStage (run cfg events) := by
  suffices h : ∀ (es : List Event) (s : SessionState), InvStage s → InvStage (runFrom cfg s es) by
    exact h events initialState invStage_initialState
  intro es
  induction es with
  | nil => exact fun s h => h
  | cons e es ih => exact fun s h => ih (step cfg s e) (invStage_step cfg s e h)

theorem replayAllowed_facts {s : SessionState} (h : replayAllowed s = true) :
    s.isSpeaking = false ∧ s.stage ≠ .processing ∧ s.stage ≠ .finished ∧
      s.currentAIQuestion.isSome = true := by
  unfold replayAllowed at h
  rw [Bool.and_eq_true, Bool.and_eq_true, Bool.and_eq_true] at h
  obtain ⟨⟨⟨hv, hsome⟩, hsp⟩, hproc⟩ := h
  refine ⟨by simpa using hsp, ?_, ?_, hsome⟩
  · intro hcontra
    rw [hcontra] at hproc
    simp at hproc
  · intro hcontra
    unfold viewExists at hv
    rw [hcontra] at hv
    simp at hv

/-- C9 (counterexample): the Replay control is available while voice
capture is in flight — its render condition checks only for a current
question, not speaking, and not processing — contradicting "permitted only
when not capturing". -/
theorem c9_counterexample :
    replayAllowed (run ⟨⟨[⟨"Theme A", ["Q1"]⟩]⟩, .enUS⟩
      [.fetchInitial (.service (.parsed ⟨"Q1", "Theme A", false, false⟩)),
       .speechEnd .ended, .startCapture]) = true ∧
    (run ⟨⟨[⟨"Theme A", ["Q1"]⟩]⟩, .enUS⟩
      [.fetchInitial (.service (.parsed ⟨"Q1", "Theme A", false, false⟩)),
       .speechEnd .ended, .startCapture]).isListening = true := by
  decide

/-- C9 (amended): replaying the current question (permitted when a current
question exists, not speaking, and not processing — capturing does not
disable it) never changes the transcript and never changes the stage: in
every reachable state, after the replay completes (naturally, with a null
synthesis, or on a thrown synthesis) the transcript and stage are identical
to what they were when the replay was requested. -/
theorem c9_replay_frame (cfg : SessionConfig) (events : List Event) (o : SpeechOutcome) :
    (step cfg (run cfg events) (.replay o)).transcript = (run cfg events).transcript ∧
    (step cfg (run cfg events) (.replay o)).stage = (run cfg events).stage := by
  have hinv := invStage_run cfg events
  obtain ⟨h1, h2, h3, h4⟩ := hinv
  simp only [step]
  split
  · rename_i hallow
    split
    · rename_i q heq
      have hf := replayStep_fields (run cfg events) q o
      obtain ⟨hsp, hproc, hfin, -⟩ := replayAllowed_facts hallow
      refine ⟨hf.1, ?_⟩
      rw [hf.2.2.1]
      cases hstage : (run cfg events).stage with
      | asking =>
        exact absurd (h1 hstage) (by rw [hsp]; exact Bool.false_ne_true)
      | listening =>
        obtain ⟨q', hq', hth⟩ := h2 hstage
        rw [heq] at hq'
        injection hq' with hq'
        subst hq'
        unfold themeStage
        rw [if_neg hth]
      | concluding =>
        obtain ⟨q', hq', hth⟩ := h3 hstage hsp
        rw [heq] at hq'
        injection hq' with hq'
        subst hq'
        unfold themeStage
        rw [if_pos hth]
      | initial =>
        have := (h4 hstage).1
        rw [heq] at this
        cases this
      | processing => exact absurd hstage hproc
      | finished => exact absurd hstage hfin
    · exact ⟨rfl, rfl⟩
  · exact ⟨rfl, rfl⟩

/-- Witness for `c8_amended` at a concrete state and snapshot. -/
theorem c8_amended_witness :
    (submitAccepted
        { transcript := [aiTurn ⟨"Bye", "Conclusion", false, true⟩], stage := .concluding,
          currentAIQuestion := some ⟨"Bye", "Conclusion", false, true⟩,
          currentUserResponse := "", isSpeaking := false, isListening := false,
          voiceInputStage := .idle, lastSpokenQuestionText := some "Bye",
          pendingSubmit := none, handedOff := none } = true ↔
      themeOfOpt (some (⟨"Bye", "Conclusion", false, true⟩ : AIQuestionResponse)) =
        some conclusionTheme) ∧
    requestTranscript [] (some "") (some ⟨"Bye", "Conclusion", false, true⟩) = [] :=
  ⟨c8_amended.1 _ (by decide) rfl rfl (by decide) rfl (by decide),
    c8_amended.2 [] "" (some ⟨"Bye", "Conclusion", false, true⟩) (by decide) (by decide)⟩

end Foresight
